import Mathlib

/-!
# Verification of the cfrp-rs execution core

A shallow embedding, in Lean 4, of the event protocol and the node
implementations of the cfrp-rs repository, together with theorems settling
the specification claims about them.

Source files embedded here:
* src/lib.rs          — the Event type (Changed / Unchanged / Exit); the
                         primitives/lift.rs version of the crate additionally
                         carries a NoOp variant, so the embedding below keeps
                         all four constructors and the current three-variant
                         code simply never produces noOp.
* src/primitives/input.rs    — ReceiverInput::run, ValueInput::run, and the
                         NoOp impl for SyncSender (send_no_change, send_exit).
* src/primitives/channel.rs  — Channel::push_to (Some and None branches).
* src/channel.rs      — Channel::recv.
* src/primitives/lift.rs     — LiftPusher::push.
* src/signal.rs       — Signal::foldp (the Fold constructor).
* src/builder.rs      — Builder::add.

Queues are modelled as a Lane: a buffer of already-enqueued events plus a
closed flag.  A Rust mpsc send fails exactly when the receiving end has been
dropped, so sendEv appends when the lane is open and reports an error when it
is closed; once closed a lane stays closed, matching mpsc behaviour.
-/

/-- Event<A> of src/lib.rs, extended with the NoOp variant that the
primitives/lift.rs version of the crate matches on.  The three-variant code
of lib.rs constructs only changed, unchanged and exit. -/
inductive Event (A : Type) where
  | changed : A → Event A
  | unchanged : Event A
  | noOp : Event A
  | exit : Event A
deriving Repr, DecidableEq

/-- SignalType<A> of src/lib.rs. -/
inductive SignalType (A : Type) where
  | constant : A → SignalType A
  | dynamic : A → SignalType A
deriving Repr, DecidableEq

/-- One outbound queue (one lane): the events enqueued so far and whether the
receiving end has been dropped. -/
structure Lane (A : Type) where
  closed : Bool
  buf : List (Event A)
deriving Repr, DecidableEq

/-- tx.send(e) on a SyncSender: enqueue when the receiver is alive, report an
error when the queue has been torn down.  The Bool is true on error. -/
def sendEv {A : Type} (l : Lane A) (e : Event A) : Lane A × Bool :=
  if l.closed then (l, true) else ({ l with buf := l.buf ++ [e] }, false)

/-- NoOp::send_no_change for SyncSender<Event<A>>
(src/primitives/input.rs lines 111-116): send Event::Unchanged and return
true exactly when the send failed. -/
def sendNoChange {A : Type} (l : Lane A) : Lane A × Bool :=
  sendEv l Event.unchanged

/-- NoOp::send_exit for SyncSender<Event<A>>
(src/primitives/input.rs lines 118-120): send Event::Exit and unwrap the
result.  none models the panic of unwrap on a failed send. -/
def sendExit {A : Type} (l : Lane A) : Option (Lane A) :=
  match sendEv l Event.exit with
  | (l2, false) => some l2
  | (_, true) => none

/-- The Ok(ref a) arm of ReceiverInput::run (src/primitives/input.rs lines
43-53): walk the NoOp-handle vector in index order starting at position k.
At the input's own index send Changed(a.clone()) on its outbound queue and
return from run when the send errs; at every other index call
send_no_change() and return from run when it yields true.

Result: the updated lanes, the trace of successful enqueues (index, event)
in pass order, and whether run returned during the pass. -/
def broadcastFrom {A : Type} (idx : Nat) (a : A) :
    Nat → List (Lane A) → List (Lane A) × List (Nat × Event A) × Bool
  | _, [] => ([], [], false)
  | k, l :: ls =>
    if k = idx then
      let s := sendEv l (Event.changed a)
      if s.2 then (s.1 :: ls, [], true)
      else
        let r := broadcastFrom idx a (k + 1) ls
        (s.1 :: r.1, (k, Event.changed a) :: r.2.1, r.2.2)
    else
      let s := sendNoChange l
      if s.2 then (s.1 :: ls, [], true)
      else
        let r := broadcastFrom idx a (k + 1) ls
        (s.1 :: r.1, (k, Event.unchanged) :: r.2.1, r.2.2)

/-- One iteration of ReceiverInput::run for a received external value a,
with the input running at index idx: the broadcast pass over the whole
handle vector. -/
def receiverInputTick {A : Type} (idx : Nat) (a : A) (lanes : List (Lane A)) :
    List (Lane A) × List (Nat × Event A) × Bool :=
  broadcastFrom idx a 0 lanes

/-- The Err(_) arm of ReceiverInput::run (src/primitives/input.rs lines
55-60): the inbound queue closed, so call send_exit on every NoOp handle in
the shared vector (the input's own position included) and return.  none
models the panic inside send_exit when some outbound queue is closed. -/
def exitBroadcast {A : Type} : List (Lane A) → Option (List (Lane A))
  | [] => some []
  | l :: ls =>
    match sendExit l with
    | none => none
    | some l2 =>
      match exitBroadcast ls with
      | none => none
      | some ls2 => some (l2 :: ls2)

/-- The event lane i receives during a tick initiated by the input at index
idx with value a: Changed(a) on the initiating lane, Unchanged elsewhere.
Written from the spec, for comparison with the pass the code performs. -/
def tickEvent {A : Type} (idx i : Nat) (a : A) : Event A :=
  if i = idx then Event.changed a else Event.unchanged

/-- Lane contents after the tick the spec describes: starting from position
k, each lane's buffer is extended by exactly its tickEvent. -/
def specTickLanes {A : Type} (idx : Nat) (a : A) : Nat → List (Lane A) → List (Lane A)
  | _, [] => []
  | k, l :: ls =>
    { l with buf := l.buf ++ [tickEvent idx k a] } :: specTickLanes idx a (k + 1) ls

/-- The enqueue order the spec describes for n lanes starting at position k:
lane k, then lane k+1, and so on, each receiving its tickEvent. -/
def specTickTrace {A : Type} (idx : Nat) (a : A) : Nat → Nat → List (Nat × Event A)
  | _, 0 => []
  | k, n + 1 => (k, tickEvent idx k a) :: specTickTrace idx a (k + 1) n

/-- The unconditional loop of ValueInput::run (src/primitives/input.rs lines
97-102): match tx.send(Event::Unchanged) ... Err ⇒ return.  A send fails
exactly when the receiver has been dropped and keeps failing afterwards, so
an execution is determined by the number n of sends the queue still accepts;
the result is the trace of successfully enqueued events. -/
def unchangedLoop (A : Type) : Nat → List (Event A)
  | 0 => []
  | n + 1 => Event.unchanged :: unchangedLoop A n

/-- ValueInput::run (src/primitives/input.rs lines 91-103) for a value v:
send Event::Changed(value) once with the Result ignored, then loop sending
Event::Unchanged until a send fails.  k is the number of sends the outbound
queue accepts before its receiver is dropped; the result is the trace of
events this adapter successfully enqueued.  Note: the run takes no input
from peers — no peer broadcast is consulted anywhere in its body. -/
def valueInputRun {A : Type} (v : A) (k : Nat) : List (Event A) :=
  match k with
  | 0 => unchangedLoop A 0
  | n + 1 => Event.changed v :: unchangedLoop A n

/-- The lane behaviour claim C5 attributes to the adapter, written from the
spec: one Changed(v), then exactly one Unchanged per peer broadcast received
during the run. -/
def specValueLane {A : Type} (v : A) (peerBroadcasts : Nat) : List (Event A) :=
  Event.changed v :: List.replicate peerBroadcasts Event.unchanged

/-- Channel::recv (src/channel.rs lines 8-13): a recv error becomes
Event::Exit, a received event is returned as is. -/
def channelRecv {A : Type} : Option (Event A) → Event A
  | none => Event.exit
  | some a => a

/-- The Some(mut t) branch of Channel::push_to (src/primitives/channel.rs
lines 26-43): loop on source_rx.recv(); on Ok(a) push a to the target and
continue the loop; on Err push Event::Exit and return.  The inbound queue is
modelled as the list of events received before the queue closes; the result
is the sequence of events pushed to the target. -/
def channelPushToSome {A : Type} : List (Event A) → List (Event A)
  | [] => [Event.exit]
  | e :: rest => e :: channelPushToSome rest

/-- The None branch of Channel::push_to (src/primitives/channel.rs lines
44-54): loop on source_rx.recv() discarding Ok values until the queue
closes; nothing is pushed anywhere.  The result is the (empty) sequence of
pushed events. -/
def channelPushToNone {A : Type} : List (Event A) → List (Event A)
  | [] => []
  | _ :: rest => channelPushToNone rest

/-- LiftPusher::push (src/primitives/lift.rs lines 80-102) for function f,
one event: Changed(a) ⇒ evaluate b = f(a) and push Changed(b); Unchanged ⇒
push Unchanged; NoOp ⇒ push NoOp; Exit ⇒ push Exit.  The second component
records the arguments f was invoked on during this push, so that invocation
counts are observable. -/
def liftPush {A B : Type} (f : A → B) : Event A → Event B × List A
  | Event.changed a => (Event.changed (f a), [a])
  | Event.unchanged => (Event.unchanged, [])
  | Event.noOp => (Event.noOp, [])
  | Event.exit => (Event.exit, [])

/-- A sequence of pushes through a LiftPusher: the pushed outputs and the
concatenated record of arguments f was invoked on. -/
def liftRun {A B : Type} (f : A → B) : List (Event A) → List (Event B) × List A
  | [] => ([], [])
  | e :: es =>
    let p := liftPush f e
    let r := liftRun f es
    (p.1 :: r.1, p.2 ++ r.2)

/-- Whether an event is a Changed. -/
def isChanged {A : Type} : Event A → Bool
  | Event.changed _ => true
  | _ => false

/-- The build-time Fold record constructed by Signal::foldp
(src/signal.rs lines 56-70): parent signal, folding function and the seed
as initial state.  The parent is kept abstract as its initial value. -/
structure Fold (A B : Type) where
  parentInitial : SignalType A
  f : B → A → B
  state : B

/-- Signal::foldp (src/signal.rs lines 56-70): wrap the parent in a Fold
with the provided function and initial state. -/
def foldp {A B : Type} (parentInitial : SignalType A) (f : B → A → B) (initial : B) :
    Fold A B :=
  { parentInitial := parentInitial, f := f, state := initial }

/-- Modelled from the spec: the Fold pusher is not under src/ (only the
foldp constructor in src/signal.rs is); its per-event behaviour follows the
spec's contract — "Fold fires f on Changed only, then emits
Changed(B.clone()); on Unchanged it emits Unchanged; on Exit it emits
Exit".  Cloning is identity in the embedding.  The NoOp variant of the
lift.rs-era Event is forwarded without touching f, consistent with firing f
on Changed only.  Result: new accumulator, emitted event, and the arguments
f was invoked on during this push. -/
def foldPush {A B : Type} (f : B → A → B) (st : B) : Event A → B × Event B × List A
  | Event.changed a => (f st a, Event.changed (f st a), [a])
  | Event.unchanged => (st, Event.unchanged, [])
  | Event.noOp => (st, Event.noOp, [])
  | Event.exit => (st, Event.exit, [])

/-- A sequence of pushes through a Fold: threads the accumulator, collects
the emitted events and the concatenated record of invocations of f. -/
def foldRun {A B : Type} (f : B → A → B) (st : B) :
    List (Event A) → B × List (Event B) × List A
  | [] => (st, [], [])
  | e :: es =>
    let p := foldPush f st e
    let r := foldRun f p.1 es
    (r.1, p.2.1 :: r.2.1, p.2.2 ++ r.2.2)

/-- Modelled from the spec: the Branch handle (primitives/fork.rs is not
under src/) — "a cloneable reference holding: the shared fork-sink vector,
an optional already-assigned per-branch inbound queue, and the initial value
of the upstream signal".  Shared vectors and queues are modelled as numeric
references into the builder's stores, matching the Branch::new(fork_txs,
None, v) call in src/builder.rs line 66. -/
structure Branch (A : Type) where
  forkTxs : Nat
  rx : Option Nat
  initial : SignalType A

/-- Modelled from the spec: the Fork runner (primitives/fork.rs is not under
src/) — it owns the parent signal and the shared vector of outbound sinks,
matching the Fork::new(Box::new(root), fork_txs.clone()) call in
src/builder.rs line 62.  The parent signal is kept abstract as its initial
value. -/
structure Fork (A : Type) where
  parentInitial : SignalType A
  forkTxs : Nat

/-- The Builder of src/builder.rs restricted to one payload type: the list
of registered runners, a store of fork-sink vectors (reference ↦ vector of
sink references), and a counter from which fresh references are allocated.
The Arc<Mutex<Vec<_>>> values the Rust code shares by reference are the
entries of sinkVecs; two holders of the same Nat share one vector. -/
structure Builder (A : Type) where
  runners : List (Fork A)
  sinkVecs : List (Nat × List Nat)
  nextRef : Nat

/-- Builder::add (src/builder.rs lines 54-67): read the signal's initial
value, allocate a fresh empty lock-protected sink vector, wrap the signal in
a Fork sharing that vector, append the Fork to the runner list, and return
Branch::new(fork_txs, None, v). -/
def Builder.add {A : Type} (b : Builder A) (rootInitial : SignalType A) :
    Builder A × Branch A :=
  let v := rootInitial
  let ref := b.nextRef
  let fork : Fork A := { parentInitial := rootInitial, forkTxs := ref }
  ({ runners := b.runners ++ [fork],
     sinkVecs := b.sinkVecs ++ [(ref, [])],
     nextRef := ref + 1 },
   { forkTxs := ref, rx := none, initial := v })

/-- An all-open broadcast pass, started at any position k, enqueues exactly
the tickEvent of each lane in index order and does not return early. -/
theorem broadcastFrom_open {A : Type} (idx : Nat) (a : A) :
    ∀ (lanes : List (Lane A)) (k : Nat),
      lanes.all (fun l => !l.closed) = true →
      broadcastFrom idx a k lanes =
        (specTickLanes idx a k lanes, specTickTrace idx a k lanes.length, false)
  | [], _, _ => rfl
  | l :: ls, k, h => by
    rw [List.all_cons, Bool.and_eq_true] at h
    have hl : l.closed = false := by simpa using h.1
    have ih := broadcastFrom_open idx a ls (k + 1) h.2
    by_cases hk : k = idx
    · subst hk
      simp [broadcastFrom, sendEv, sendNoChange, hl, ih, specTickLanes,
        specTickTrace, tickEvent]
    · simp [broadcastFrom, hk, sendEv, sendNoChange, hl, ih, specTickLanes,
        specTickTrace, tickEvent]

/-- Every position m with k ≤ m < k + n occurs in the spec trace with its
tickEvent. -/
theorem specTickTrace_mem {A : Type} (idx : Nat) (a : A) :
    ∀ (n k m : Nat), k ≤ m → m < k + n →
      (m, tickEvent idx m a) ∈ specTickTrace idx a k n
  | 0, k, m, hle, hlt => by omega
  | n + 1, k, m, hle, hlt => by
    rcases Nat.eq_or_lt_of_le hle with heq | hgt
    · subst heq
      exact List.mem_cons_self _ _
    · exact List.mem_cons_of_mem _
        (specTickTrace_mem idx a n (k + 1) m hgt (by omega))

/-- Claim C1: for every external value a received by the Input at index idx,
the Ok arm of ReceiverInput::run makes one ordered pass over the shared
NoOp-handle vector during which exactly one event is enqueued on each lane,
Changed(a) on lane idx and Unchanged on every other lane, in the index order
of the handle vector — provided every outbound queue is still open, so that
no send aborts the pass. -/
theorem claimC1_per_tick_alignment {A : Type} (idx : Nat) (a : A)
    (lanes : List (Lane A))
    (hopen : lanes.all (fun l => !l.closed) = true)
    (hidx : idx < lanes.length) :
    receiverInputTick idx a lanes =
      (specTickLanes idx a 0 lanes, specTickTrace idx a 0 lanes.length, false) ∧
    (idx, Event.changed a) ∈ specTickTrace idx a 0 lanes.length := by
  refine ⟨broadcastFrom_open idx a lanes 0 hopen, ?_⟩
  have h := specTickTrace_mem idx a lanes.length 0 idx (Nat.zero_le _) (by omega)
  simpa [tickEvent] using h

/-- Witness for Claim C1: three open lanes, the input at index 1 receives 5. -/
theorem claimC1_witness :
    receiverInputTick 1 (5 : Nat) [⟨false, []⟩, ⟨false, []⟩, ⟨false, []⟩] =
      (specTickLanes 1 5 0 [⟨false, []⟩, ⟨false, []⟩, ⟨false, []⟩],
       specTickTrace 1 5 0 ([⟨false, []⟩, ⟨false, []⟩, ⟨false, []⟩] : List (Lane Nat)).length,
       false) ∧
    (1, Event.changed 5) ∈
      specTickTrace 1 (5 : Nat) 0 ([⟨false, []⟩, ⟨false, []⟩, ⟨false, []⟩] : List (Lane Nat)).length :=
  claimC1_per_tick_alignment 1 5 _ (by decide) (by decide)

/-- Counterexample to Claim C4: NoOp::send_exit is
self.send(Event::Exit).unwrap() (src/primitives/input.rs line 119), so when
the handle at index 0 already has its outbound queue torn down, the unwrap
panics during the Err-arm broadcast: the result is a panic (none), not the
claimed delivery of Exit via every handle followed by a normal return — the
handle at index 1 receives nothing. -/
theorem claimC4_counterexample :
    exitBroadcast [⟨true, []⟩, ⟨false, []⟩] = (none : Option (List (Lane Nat))) ∧
    exitBroadcast [⟨true, []⟩, ⟨false, []⟩] ≠
      some (([⟨true, []⟩, ⟨false, []⟩] : List (Lane Nat)).map
        (fun l => { l with buf := l.buf ++ [Event.exit] })) := by
  decide

/-- Claim C4 as amended: when the Input's inbound queue closes, the Err arm
of ReceiverInput::run calls send_exit on every NoOp handle in index order,
its own lane's handle included since the loop skips no index.  When every
outbound queue is still open, every lane receives Exit and run returns
normally; but send_exit unwraps its send, so when some outbound queue is
already torn down the broadcast panics at the first such handle instead of
returning, and handles after it receive no Exit. -/
theorem claimC4_amended_exit_broadcast_or_panic {A : Type}
    (lanes : List (Lane A)) :
    exitBroadcast lanes =
      if lanes.all (fun l => !l.closed) then
        some (lanes.map (fun l => { l with buf := l.buf ++ [Event.exit] }))
      else none := by
  induction lanes with
  | nil => rfl
  | cons l ls ih =>
    cases hl : l.closed
    · cases hall : ls.all (fun x => !x.closed) <;>
        simp [exitBroadcast, sendExit, sendEv, hl, ih, hall, List.all_cons]
    · simp [exitBroadcast, sendExit, sendEv, hl, List.all_cons]

/-- If the pass reaches a closed lane (position i closed, all earlier lanes
open), the run loop returns during the pass. -/
theorem broadcastFrom_ret {A : Type} (idx : Nat) (a : A) :
    ∀ (lanes : List (Lane A)) (k i : Nat) (li : Lane A),
      lanes.get? i = some li → li.closed = true →
      (lanes.take i).all (fun l => !l.closed) = true →
      (broadcastFrom idx a k lanes).2.2 = true
  | [], _, i, _, hget, _, _ => by simp [List.get?] at hget
  | l :: ls, k, 0, li, hget, hcl, _ => by
    have hli : l = li := by simpa using hget
    subst hli
    by_cases hk : k = idx <;>
      simp [broadcastFrom, hk, sendEv, sendNoChange, hcl]
  | l :: ls, k, i + 1, li, hget, hcl, htake => by
    have hget2 : ls.get? i = some li := by simpa using hget
    rw [List.take_succ_cons, List.all_cons, Bool.and_eq_true] at htake
    have hl : l.closed = false := by simpa using htake.1
    have ih := broadcastFrom_ret idx a ls (k + 1) i li hget2 hcl htake.2
    by_cases hk : k = idx
    · subst hk
      simp [broadcastFrom, sendEv, sendNoChange, hl, ih]
    · simp [broadcastFrom, hk, sendEv, sendNoChange, hl, ih]

/-- Claim C6: send_no_change returns true exactly when the send of Unchanged
into the peer's outbound queue fails, i.e. when that queue has been torn
down; and when the broadcast pass of the initiating Input meets such a
handle — lanes.get? i closed at a peer position i ≠ idx, all handles before
it open, so that send_no_change() is the call that yields true — the run
loop returns. -/
theorem claimC6_send_no_change_teardown {A : Type} (l : Lane A) (idx : Nat)
    (a : A) (lanes : List (Lane A)) (i : Nat) (li : Lane A)
    (hget : lanes.get? i = some li) (hcl : li.closed = true) (hne : i ≠ idx)
    (htake : (lanes.take i).all (fun x => !x.closed) = true) :
    ((sendNoChange l).2 = true ↔ l.closed = true) ∧
    (receiverInputTick idx a lanes).2.2 = true := by
  constructor
  · cases h : l.closed <;> simp [sendNoChange, sendEv, h]
  · exact broadcastFrom_ret idx a lanes 0 i li hget hcl htake

/-- Witness for Claim C6: the input at index 0 broadcasts 5; the peer lane
at index 1 is torn down. -/
theorem claimC6_witness :
    ((sendNoChange (⟨true, []⟩ : Lane Nat)).2 = true ↔
      (⟨true, []⟩ : Lane Nat).closed = true) ∧
    (receiverInputTick 0 (5 : Nat) [⟨false, []⟩, ⟨true, []⟩]).2.2 = true :=
  claimC6_send_no_change_teardown ⟨true, []⟩ 0 5 _ 1 ⟨true, []⟩
    (by decide) (by decide) (by decide) (by decide)

/-- If the pass reaches a closed lane at position i with all earlier lanes
open, where position i carries label k + i, then: run returns during the
pass, lane i and every later lane are left untouched, and every event
enqueued during the pass is an Unchanged at a label below k + i. -/
theorem broadcastFrom_abort {A : Type} (idx : Nat) (a : A) :
    ∀ (lanes : List (Lane A)) (k i : Nat) (li : Lane A),
      k + i = idx →
      lanes.get? i = some li → li.closed = true →
      (lanes.take i).all (fun l => !l.closed) = true →
      (broadcastFrom idx a k lanes).2.2 = true ∧
      (∀ j, i ≤ j → (broadcastFrom idx a k lanes).1.get? j = lanes.get? j) ∧
      (∀ p ∈ (broadcastFrom idx a k lanes).2.1,
        p.2 = Event.unchanged ∧ p.1 < idx)
  | [], _, i, _, _, hget, _, _ => by simp [List.get?] at hget
  | l :: ls, k, 0, li, hsum, hget, hcl, _ => by
    have hli : l = li := by simpa using hget
    subst hli
    have hk : k = idx := by omega
    subst hk
    simp [broadcastFrom, sendEv, hcl]
  | l :: ls, k, i + 1, li, hsum, hget, hcl, htake => by
    have hk : k ≠ idx := by omega
    have hget2 : ls.get? i = some li := by simpa using hget
    rw [List.take_succ_cons, List.all_cons, Bool.and_eq_true] at htake
    have hl : l.closed = false := by simpa using htake.1
    obtain ⟨ih1, ih2, ih3⟩ :=
      broadcastFrom_abort idx a ls (k + 1) i li (by omega) hget2 hcl htake.2
    refine ⟨?_, ?_, ?_⟩
    · simp [broadcastFrom, hk, sendNoChange, sendEv, hl, ih1]
    · intro j hj
      match j, hj with
      | j + 1, _ =>
        have hj2 : i ≤ j := by omega
        simp only [broadcastFrom, if_neg hk, sendNoChange, sendEv, hl]
        simpa using ih2 j hj2
    · intro p hp
      simp only [broadcastFrom, if_neg hk, sendNoChange, sendEv, hl] at hp
      simp only [Bool.false_eq_true, if_false, List.mem_cons] at hp
      rcases hp with hp | hp
      · subst hp
        exact ⟨rfl, by omega⟩
      · exact ih3 p hp

/-- Claim C10: when the initiating Input's own-lane send of Changed fails
(lane idx closed, every lane before it open, so the pass reaches idx and the
send of Changed errs there), ReceiverInput::run returns immediately: lane
idx and every handle after it receive no event for the tick, and nothing
enqueued during the pass is an Exit — the only enqueues are Unchanged on
lanes before idx. -/
theorem claimC10_own_send_failure_aborts {A : Type} (idx : Nat) (a : A)
    (lanes : List (Lane A)) (li : Lane A)
    (hget : lanes.get? idx = some li) (hcl : li.closed = true)
    (htake : (lanes.take idx).all (fun l => !l.closed) = true) :
    (receiverInputTick idx a lanes).2.2 = true ∧
    (∀ j, idx ≤ j → (receiverInputTick idx a lanes).1.get? j = lanes.get? j) ∧
    (∀ p ∈ (receiverInputTick idx a lanes).2.1,
      p.2 = Event.unchanged ∧ p.1 < idx) := by
  simpa [receiverInputTick] using
    broadcastFrom_abort idx a lanes 0 idx li (by omega) hget hcl htake

/-- Witness for Claim C10: the input at index 1 tries to broadcast 9 but its
own outbound queue is closed; the open peer lane is at index 0. -/
theorem claimC10_witness :
    (receiverInputTick 1 (9 : Nat) [⟨false, []⟩, ⟨true, []⟩]).2.2 = true ∧
    (∀ j, 1 ≤ j →
      (receiverInputTick 1 (9 : Nat) [⟨false, []⟩, ⟨true, []⟩]).1.get? j =
        ([⟨false, []⟩, ⟨true, []⟩] : List (Lane Nat)).get? j) ∧
    (∀ p ∈ (receiverInputTick 1 (9 : Nat) [⟨false, []⟩, ⟨true, []⟩]).2.1,
      p.2 = Event.unchanged ∧ p.1 < 1) :=
  claimC10_own_send_failure_aborts 1 9 _ ⟨true, []⟩
    (by decide) (by decide) (by decide)

/-- True when the sequence stops at its first Exit: once an Exit appears,
nothing follows it. -/
def stopsAtExit {A : Type} : List (Event A) → Bool
  | [] => true
  | Event.exit :: rest => rest.isEmpty
  | _ :: rest => stopsAtExit rest

/-- Counterexample to Claim C2: a Channel source whose inbound queue yields
Ok(Exit) and then Ok(Changed 5) before closing forwards the Exit and keeps
looping — the loop in Channel::push_to returns only on a recv error, not on
an Exit event — so a Changed event (and a second Exit) is pushed after the
observed Exit. -/
theorem claimC2_counterexample :
    channelPushToSome [Event.exit, Event.changed (5 : Nat)] =
      [Event.exit, Event.changed 5, Event.exit] ∧
    stopsAtExit (channelPushToSome [Event.exit, Event.changed (5 : Nat)]) = false := by
  decide

/-- Claim C2 as amended: upon observing an Exit event, the Channel source
loop forwards the Exit downstream but does not terminate — it continues
forwarding subsequent events and terminates only when its inbound queue
closes, pushing one final Exit; LiftPusher maps each observed Exit to an
Exit pushed downstream, its push returning without terminating anything. -/
theorem claimC2_amended_exit_forwarded_not_terminal {A B : Type} (f : A → B)
    (q r : List (Event A)) :
    channelPushToSome (q ++ Event.exit :: r) =
      q ++ Event.exit :: channelPushToSome r ∧
    (liftPush f Event.exit).1 = Event.exit := by
  refine ⟨?_, rfl⟩
  induction q with
  | nil => rfl
  | cons e q ih => simp [channelPushToSome, ih]

/-- Claim C3: LiftPusher::push computes f(a) and pushes Changed(f(a)) on
Changed(a), pushes Unchanged without calling f on Unchanged, pushes Exit on
Exit, and across any sequence of pushes the number of invocations of f
equals the number of Changed events received. -/
theorem claimC3_lift_purity {A B : Type} (f : A → B) (a : A)
    (es : List (Event A)) :
    liftPush f (Event.changed a) = (Event.changed (f a), [a]) ∧
    liftPush f Event.unchanged = (Event.unchanged, []) ∧
    liftPush f Event.exit = (Event.exit, []) ∧
    (liftRun f es).2.length = es.countP isChanged := by
  refine ⟨rfl, rfl, rfl, ?_⟩
  induction es with
  | nil => rfl
  | cons e es ih =>
    cases e <;> simp [liftRun, liftPush, isChanged, List.countP_cons, ih]

/-- Across any sequence of pushes, the number of invocations of the fold
function equals the number of Changed events received. -/
theorem foldRun_calls_length {A B : Type} (f : B → A → B) :
    ∀ (es : List (Event A)) (st : B),
      (foldRun f st es).2.2.length = es.countP isChanged
  | [], _ => rfl
  | e :: es, st => by
    cases e <;>
      simp [foldRun, foldPush, isChanged, List.countP_cons,
        foldRun_calls_length f es]

/-- Claim C7: the Fold pusher invokes f on Changed events only — updating
the accumulator to f(state, a) and emitting Changed of the (cloned) new
accumulator — emits Unchanged without invoking f on Unchanged, emits Exit
on Exit, and across any sequence of pushes f is invoked exactly once per
Changed event received. -/
theorem claimC7_fold_fires_on_changed {A B : Type} (f : B → A → B) (st : B)
    (a : A) (es : List (Event A)) :
    foldPush f st (Event.changed a) = (f st a, Event.changed (f st a), [a]) ∧
    foldPush f st Event.unchanged = (st, Event.unchanged, []) ∧
    foldPush f st Event.exit = (st, Event.exit, []) ∧
    foldp (SignalType.dynamic a) f st =
      { parentInitial := SignalType.dynamic a, f := f, state := st } ∧
    (foldRun f st es).2.2.length = es.countP isChanged :=
  ⟨rfl, rfl, rfl, rfl, foldRun_calls_length f es st⟩

/-- Counterexample to Claim C5: ValueInput::run never consults peer
broadcasts — its Unchanged sends come from an unconditional loop.  In an
execution where the outbound queue accepts three sends while no peer
broadcast occurs, the adapter enqueues two Unchanged events, whereas the
claimed peer-driven behaviour (specValueLane with zero peer broadcasts)
would enqueue none. -/
theorem claimC5_counterexample :
    valueInputRun (7 : Nat) 3 =
      [Event.changed 7, Event.unchanged, Event.unchanged] ∧
    (valueInputRun (7 : Nat) 3).countP (fun e => e == Event.unchanged) = 2 ∧
    valueInputRun (7 : Nat) 3 ≠ specValueLane 7 0 := by
  decide

/-- The Unchanged loop of ValueInput::run enqueues one Unchanged per send
the queue accepts. -/
theorem unchangedLoop_eq_replicate (A : Type) :
    ∀ n : Nat, unchangedLoop A n = List.replicate n Event.unchanged
  | 0 => rfl
  | n + 1 => by simp [unchangedLoop, List.replicate_succ,
      unchangedLoop_eq_replicate A n]

/-- Claim C5 as amended: the adapter sends one Changed(v) — ignoring that
send's result — then unconditionally loops sending Unchanged, independent of
any peer tick, returning when a send fails; with the outbound queue
accepting n+1 sends it enqueues Changed(v) followed by n Unchanged, and
with the queue already torn down it enqueues nothing (the failed Changed
send is ignored and the loop returns on its first failed send). -/
theorem claimC5_amended_unconditional_loop {A : Type} (v : A) (n : Nat) :
    valueInputRun v 0 = [] ∧
    valueInputRun v (n + 1) =
      Event.changed v :: List.replicate n Event.unchanged := by
  exact ⟨rfl, by simp [valueInputRun, unchangedLoop_eq_replicate]⟩

/-- Claim C8: with Some(sink), Channel::push_to forwards every event
received Ok from its inbound queue unmodified and, when the queue closes,
pushes exactly one Exit and returns; with None it drains the queue pushing
nothing; Channel::recv likewise turns queue closure into Exit. -/
theorem claimC8_channel_forwards {A : Type} (q : List (Event A)) :
    channelPushToSome q = q ++ [Event.exit] ∧
    channelPushToNone q = [] ∧
    channelRecv (none : Option (Event A)) = Event.exit := by
  refine ⟨?_, ?_, rfl⟩
  · induction q with
    | nil => rfl
    | cons e q ih => simp [channelPushToSome, ih]
  · induction q with
    | nil => rfl
    | cons e q ih => simp [channelPushToNone, ih]

/-- Claim C9: Builder::add reads the signal's initial value, wraps the
signal in a Fork sharing a freshly allocated, initially empty sink vector
(fresh: distinct from every vector already in the store, given that stored
references are below the allocation counter), appends that Fork to the
builder's runner list, and returns a Branch holding the shared fork-sink
vector reference, no already-assigned inbound queue, and the signal's
initial value. -/
theorem claimC9_add_registers_fork {A : Type} (b : Builder A)
    (ri : SignalType A)
    (hwf : b.sinkVecs.all (fun p => decide (p.1 < b.nextRef)) = true) :
    (b.add ri).1.runners =
      b.runners ++ [{ parentInitial := ri, forkTxs := ((b.add ri).2).forkTxs }] ∧
    (b.add ri).1.sinkVecs = b.sinkVecs ++ [(((b.add ri).2).forkTxs, [])] ∧
    (∀ p ∈ b.sinkVecs, p.1 ≠ ((b.add ri).2).forkTxs) ∧
    ((b.add ri).2).rx = none ∧
    ((b.add ri).2).initial = ri := by
    refine ⟨rfl, rfl, ?_, rfl, rfl⟩
    intro p hp
    have h := List.all_eq_true.mp hwf p hp
    have hlt : p.1 < b.nextRef := of_decide_eq_true h
    show p.1 ≠ b.nextRef
    omega

/-- Witness for Claim C9: a builder already holding one sink vector at
reference 0 and allocation counter 1 adds a signal with initial Dynamic 2. -/
theorem claimC9_witness :
    ((Builder.mk [] [(0, [])] 1).add (SignalType.dynamic (2 : Nat))).1.runners =
      ([] : List (Fork Nat)) ++
        [{ parentInitial := SignalType.dynamic 2,
           forkTxs := (((Builder.mk [] [(0, [])] 1).add
             (SignalType.dynamic (2 : Nat))).2).forkTxs }] ∧
    ((Builder.mk [] [(0, [])] 1).add (SignalType.dynamic (2 : Nat))).1.sinkVecs =
      [(0, [])] ++ [((((Builder.mk [] [(0, [])] 1).add
        (SignalType.dynamic (2 : Nat))).2).forkTxs, [])] ∧
    (∀ p ∈ [((0 : Nat), ([] : List Nat))],
      p.1 ≠ (((Builder.mk [] [(0, [])] 1).add
        (SignalType.dynamic (2 : Nat))).2).forkTxs) ∧
    ((((Builder.mk [] [(0, [])] 1).add (SignalType.dynamic (2 : Nat))).2).rx =
      none) ∧
    ((((Builder.mk [] [(0, [])] 1).add
      (SignalType.dynamic (2 : Nat))).2).initial = SignalType.dynamic 2) :=
  claimC9_add_registers_fork (Builder.mk [] [(0, [])] 1)
    (SignalType.dynamic 2) (by decide)
